import Mathlib

/-!
Verification of the client-side state synchronization layer of a mobile
food-ordering app (cart reducer, cart/remote reconciliation, user-profile
resolution, default-address handling, order partitioning).

The TypeScript sources are shallowly embedded: JS numbers carrying money
amounts become `ℚ` (the arithmetic performed on them — sums of prices,
a 15% tax with `Math.round`, comparisons with integer thresholds — is
exact rational arithmetic on the values the app actually handles),
quantities become `ℤ`, remote tables become lists of row structures, and
the fire-and-forget remote writes become pure functions from the old
remote state to the new one.
-/

namespace PizzaApp

/-- JS `Math.round`: rounds half toward positive infinity, i.e. `⌊q + 1/2⌋`. -/
def jsRound (q : ℚ) : ℚ := ((⌊q + 1/2⌋ : ℤ) : ℚ)

/-- JS `email.split('@')[0]` on the character list: the text before the
first `'@'` (the whole string when there is no `'@'`). -/
def localPart : List Char → List Char
  | [] => []
  | c :: cs => if c = '@' then [] else c :: localPart cs

/-- The local part of an email address, as computed by `email.split('@')[0]`. -/
def emailLocalPart (s : String) : String := ⟨localPart s.data⟩

/-! ## CartContext: data model (`CartItem`, `CartState`, `CartAction`) -/

/-- `CartItem.type ∈ {menu_item, custom_pizza, deal}` from `CartContext`. -/
inductive CartItemType
  | menu_item
  | custom_pizza
  | deal
deriving DecidableEq, Repr

/-- A cart line item, from `CartContext`'s `CartItem`. The optional payload
fields (`menuItem`, `size`, `pizzaCustomization`, `deal`, `customizations`,
`description`, `image`) are never read or written by any of the modelled
operations and are elided. -/
structure CartItem where
  id : String
  type : CartItemType
  quantity : ℤ
  totalPrice : ℚ
  name : String
deriving DecidableEq, Repr

/-- `CartState` from `CartContext`. -/
structure CartState where
  items : List CartItem
  subtotal : ℚ
  deliveryFee : ℚ
  tax : ℚ
  total : ℚ
  isLoading : Bool
deriving DecidableEq, Repr

/-- `CartAction` from `CartContext`. -/
inductive CartAction
  | ADD_ITEM (payload : CartItem)
  | REMOVE_ITEM (payload : String)
  | UPDATE_QUANTITY (id : String) (quantity : ℤ)
  | CLEAR_CART
  | LOAD_CART (payload : List CartItem)
  | SET_LOADING (payload : Bool)
deriving DecidableEq, Repr

/-- The `initialState` of `CartContext`. -/
def initialState : CartState :=
  { items := [], subtotal := 0, deliveryFee := 0, tax := 0, total := 0, isLoading := false }

/-- The derived-totals record returned by `calculateTotals`. -/
structure Totals where
  subtotal : ℚ
  deliveryFee : ℚ
  tax : ℚ
  total : ℚ
deriving DecidableEq, Repr

/-- `calculateTotals` from `CartContext`: subtotal is the reduce-sum of the
items' `totalPrice`; delivery is free (0) strictly above PKR 1000, else a
flat 150; tax is `Math.round(subtotal * 0.15)`; total is their sum. -/
def calculateTotals (items : List CartItem) : Totals :=
  let subtotal := items.foldl (fun sum item => sum + item.totalPrice) 0
  let deliveryFee : ℚ := if subtotal > 1000 then 0 else 150
  let tax := jsRound (subtotal * 0.15)
  let total := subtotal + deliveryFee + tax
  { subtotal := subtotal, deliveryFee := deliveryFee, tax := tax, total := total }

/-- `cartReducer` from `CartContext`, case for case. `ADD_ITEM` merges into
the first existing item with the same id (by index) or appends; `REMOVE_ITEM`
filters the id out; `UPDATE_QUANTITY` rewrites the matching items' quantity
and then drops every item whose quantity is not positive; the three of them
overwrite the four derived fields with `calculateTotals` of the new items. -/
def cartReducer (state : CartState) (action : CartAction) : CartState :=
  match action with
  | .ADD_ITEM payload =>
    let newItems :=
      match state.items.findIdx? (fun item => item.id == payload.id) with
      | some existingItemIndex =>
        state.items.mapIdx (fun index item =>
          if index = existingItemIndex then
            { item with quantity := item.quantity + payload.quantity }
          else item)
      | none => state.items ++ [payload]
    let totals := calculateTotals newItems
    { state with items := newItems, subtotal := totals.subtotal,
                 deliveryFee := totals.deliveryFee, tax := totals.tax, total := totals.total }
  | .REMOVE_ITEM payload =>
    let newItems := state.items.filter (fun item => item.id != payload)
    let totals := calculateTotals newItems
    { state with items := newItems, subtotal := totals.subtotal,
                 deliveryFee := totals.deliveryFee, tax := totals.tax, total := totals.total }
  | .UPDATE_QUANTITY id quantity =>
    let newItems :=
      (state.items.map (fun item =>
        if item.id == id then { item with quantity := quantity } else item)).filter
        (fun item => item.quantity > 0)
    let totals := calculateTotals newItems
    { state with items := newItems, subtotal := totals.subtotal,
                 deliveryFee := totals.deliveryFee, tax := totals.tax, total := totals.total }
  | .CLEAR_CART => initialState
  | .LOAD_CART payload =>
    let totals := calculateTotals payload
    { state with items := payload, subtotal := totals.subtotal,
                 deliveryFee := totals.deliveryFee, tax := totals.tax, total := totals.total }
  | .SET_LOADING payload => { state with isLoading := payload }

/-- A dispatched sequence of cart actions, applied left to right. -/
def applyActions (acts : List CartAction) (s : CartState) : CartState :=
  acts.foldl cartReducer s

/-- The three cart mutations named by the spec's no-drift property. -/
def isCartMutation : CartAction → Bool
  | .ADD_ITEM _ => true
  | .REMOVE_ITEM _ => true
  | .UPDATE_QUANTITY _ _ => true
  | _ => false

/-! ## Basic lemmas about `calculateTotals` -/

theorem calculateTotals_subtotal (items : List CartItem) :
    (calculateTotals items).subtotal = (items.map (fun item => item.totalPrice)).sum := by
  simp [calculateTotals, List.sum_eq_foldl, List.foldl_map]

theorem calculateTotals_deliveryFee (items : List CartItem) :
    (calculateTotals items).deliveryFee =
      if (calculateTotals items).subtotal > 1000 then 0 else 150 := rfl

theorem calculateTotals_tax (items : List CartItem) :
    (calculateTotals items).tax = jsRound ((calculateTotals items).subtotal * 0.15) := rfl

theorem calculateTotals_total (items : List CartItem) :
    (calculateTotals items).total =
      (calculateTotals items).subtotal + (calculateTotals items).deliveryFee +
        (calculateTotals items).tax := rfl

/-- The spec's scenario items: item A (qty 2, unit price 500, line total 1000). -/
def scenarioItemA : CartItem :=
  { id := "A", type := .menu_item, quantity := 2, totalPrice := 1000, name := "A" }

/-- The spec's scenario items: item B (qty 1, unit price 1000, line total 1000). -/
def scenarioItemB : CartItem :=
  { id := "B", type := .menu_item, quantity := 1, totalPrice := 1000, name := "B" }

end PizzaApp

namespace PizzaApp

/-- C1: the derived totals are: subtotal = sum of the items' `totalPrice`;
deliveryFee = 0 if subtotal > 1000 and 150 otherwise; tax = round(subtotal
× 0.15); total = subtotal + deliveryFee + tax; and on the scenario cart
[A (qty 2, price 500, line total 1000), B (qty 1, price 1000)] they evaluate
to subtotal 2000, deliveryFee 0, tax 300, total 2300. -/
theorem C1_derived_totals :
    (∀ items : List CartItem,
      (calculateTotals items).subtotal = (items.map (fun item => item.totalPrice)).sum ∧
      (calculateTotals items).deliveryFee =
        (if (calculateTotals items).subtotal > 1000 then 0 else 150) ∧
      (calculateTotals items).tax = jsRound ((calculateTotals items).subtotal * 0.15) ∧
      (calculateTotals items).total =
        (calculateTotals items).subtotal + (calculateTotals items).deliveryFee +
          (calculateTotals items).tax) ∧
    calculateTotals [scenarioItemA, scenarioItemB] =
      { subtotal := 2000, deliveryFee := 0, tax := 300, total := 2300 } := by
  constructor
  · intro items
    exact ⟨calculateTotals_subtotal items, calculateTotals_deliveryFee items,
      calculateTotals_tax items, calculateTotals_total items⟩
  · simp only [calculateTotals, scenarioItemA, scenarioItemB, jsRound, List.foldl_cons,
      List.foldl_nil]
    norm_num

end PizzaApp

namespace PizzaApp

/-- The spec's no-drift property for a single state: the stored `total`
equals `subtotal + deliveryFee + tax` as recomputed by `calculateTotals`
from the stored item list. -/
def totalRecomputed (s : CartState) : Prop :=
  s.total =
    (calculateTotals s.items).subtotal + (calculateTotals s.items).deliveryFee +
      (calculateTotals s.items).tax

/-- After any one of the three cart mutations, all four derived fields of the
new state are exactly `calculateTotals` of the new item list. -/
theorem cartReducer_mutation_recomputes (s : CartState) (a : CartAction)
    (h : isCartMutation a = true) :
    (cartReducer s a).subtotal = (calculateTotals (cartReducer s a).items).subtotal ∧
    (cartReducer s a).deliveryFee = (calculateTotals (cartReducer s a).items).deliveryFee ∧
    (cartReducer s a).tax = (calculateTotals (cartReducer s a).items).tax ∧
    (cartReducer s a).total = (calculateTotals (cartReducer s a).items).total := by
  cases a with
  | ADD_ITEM payload =>
    simp only [cartReducer]
    cases s.items.findIdx? (fun item => item.id == payload.id) <;> simp
  | REMOVE_ITEM payload => simp [cartReducer]
  | UPDATE_QUANTITY id quantity => simp [cartReducer]
  | CLEAR_CART => simp [isCartMutation] at h
  | LOAD_CART payload => simp [isCartMutation] at h
  | SET_LOADING payload => simp [isCartMutation] at h

theorem totalRecomputed_of_mutation (s : CartState) (a : CartAction)
    (h : isCartMutation a = true) : totalRecomputed (cartReducer s a) := by
  have hm := cartReducer_mutation_recomputes s a h
  unfold totalRecomputed
  rw [hm.2.2.2, calculateTotals_total]

theorem totalRecomputed_applyActions (acts : List CartAction) (s : CartState)
    (a : CartAction) (h : ∀ x ∈ a :: acts, isCartMutation x = true) :
    totalRecomputed (applyActions acts (cartReducer s a)) := by
  induction acts generalizing s a with
  | nil => exact totalRecomputed_of_mutation s a (h a (by simp))
  | cons b rest ih =>
    show totalRecomputed (applyActions rest (cartReducer (cartReducer s a) b))
    exact ih (cartReducer s a) b (by intro x hx; exact h x (by simp at hx ⊢; tauto))

end PizzaApp

namespace PizzaApp

/-- C2 counterexample: the claim quantifies over every sequence of mutations,
including the empty one, whose resulting state is `initialState`; there the
stored total is 0 while `calculateTotals` of the empty item list yields
subtotal 0, deliveryFee 150 (the cart is not above the free-delivery
threshold), tax 0, hence a recomputed total of 150. -/
theorem C2_empty_sequence_drifts :
    (applyActions [] initialState).total ≠
      (calculateTotals (applyActions [] initialState).items).subtotal +
        (calculateTotals (applyActions [] initialState).items).deliveryFee +
        (calculateTotals (applyActions [] initialState).items).tax := by
  simp only [applyActions, List.foldl_nil, initialState, calculateTotals, jsRound,
    List.foldl_nil]
  norm_num

/-- C2 (amended): for every nonempty sequence of `addItem` / `removeItem` /
`updateQuantity` actions applied to the initial empty cart state, the
resulting state's `total` equals subtotal + deliveryFee + tax as recomputed
by `calculateTotals` from the resulting item list. (The empty sequence is
excluded: `initialState` itself stores total 0 against a recomputed 150.) -/
theorem C2_no_drift (acts : List CartAction) (hne : acts ≠ [])
    (hmut : ∀ x ∈ acts, isCartMutation x = true) :
    (applyActions acts initialState).total =
      (calculateTotals (applyActions acts initialState).items).subtotal +
        (calculateTotals (applyActions acts initialState).items).deliveryFee +
        (calculateTotals (applyActions acts initialState).items).tax := by
  match acts, hne with
  | a :: rest, _ =>
    exact totalRecomputed_applyActions rest initialState a hmut

/-- C2 witness: the single-action sequence `[REMOVE_ITEM "x"]` is nonempty,
consists of mutations, and yields a drift-free state. -/
theorem C2_no_drift_witness :
    (applyActions [CartAction.REMOVE_ITEM "x"] initialState).total =
      (calculateTotals (applyActions [CartAction.REMOVE_ITEM "x"] initialState).items).subtotal +
        (calculateTotals
          (applyActions [CartAction.REMOVE_ITEM "x"] initialState).items).deliveryFee +
        (calculateTotals (applyActions [CartAction.REMOVE_ITEM "x"] initialState).items).tax :=
  C2_no_drift [CartAction.REMOVE_ITEM "x"] (by decide) (by decide)

end PizzaApp

namespace PizzaApp

/-! ## CartSyncService: remote cart session and the login-time merge -/

/-- A row of the `user_cart_sessions` table (one per user); the bookkeeping
columns (`id`, `user_id`, timestamps) are not read by the modelled logic. -/
structure CartSession where
  cart_items : List CartItem
  total_amount : ℚ
deriving DecidableEq, Repr

/-- `CartSyncService.getCart`: the stored items, or `[]` when the user has no
cart session (or the fetch errors). -/
def getCart (remote : Option CartSession) : List CartItem :=
  match remote with
  | some s => s.cart_items
  | none => []

/-- `CartSyncService.syncCart`: updates the existing session or inserts a new
one; either way the user's session afterwards holds exactly the given item
list and total amount. -/
def syncCart (remote : Option CartSession) (cartItems : List CartItem)
    (totalAmount : ℚ) : Option CartSession :=
  match remote with
  | some _ => some { cart_items := cartItems, total_amount := totalAmount }
  | none => some { cart_items := cartItems, total_amount := totalAmount }

/-- `CartSyncService.mergeAndSyncCart`: starts from the local cart, walks the
server cart pushing every server item whose id is not among the local ids,
computes `newTotal` as the plain reduce-sum of the merged items' `totalPrice`,
and writes the merged cart with that total back to the remote store. Returns
(merged cart, new remote state). The `localTotal` argument is accepted and
ignored, as in the source. -/
def mergeAndSyncCart (remote : Option CartSession) (localCart : List CartItem)
    (localTotal : ℚ) : List CartItem × Option CartSession :=
  let serverCart := getCart remote
  let mergedCart := serverCart.foldl
    (fun acc serverItem =>
      if localCart.any (fun item => item.id == serverItem.id) then acc
      else acc ++ [serverItem])
    localCart
  let newTotal := mergedCart.foldl (fun sum item => sum + item.totalPrice) 0
  (mergedCart, syncCart remote mergedCart newTotal)

/-- The total amount stored in the user's remote cart session (0 when absent,
as `getCart` also reads an absent session as an empty cart). -/
def writtenTotal (remote : Option CartSession) : ℚ :=
  match remote with
  | some s => s.total_amount
  | none => 0

/-- The conditional-push loop of the merge is an append-filter. -/
theorem foldl_push_filter (p : CartItem → Bool) (l acc : List CartItem) :
    l.foldl (fun acc x => if p x then acc else acc ++ [x]) acc =
      acc ++ l.filter (fun x => !p x) := by
  induction l generalizing acc with
  | nil => simp
  | cons x xs ih =>
    by_cases h : p x = true <;> simp [List.foldl_cons, h, ih]

theorem mergeAndSyncCart_items (remote : Option CartSession)
    (localCart : List CartItem) (localTotal : ℚ) :
    (mergeAndSyncCart remote localCart localTotal).1 =
      localCart ++ (getCart remote).filter
        (fun serverItem => !(localCart.any (fun item => item.id == serverItem.id))) := by
  simp only [mergeAndSyncCart]
  exact foldl_push_filter _ (getCart remote) localCart

theorem mergeAndSyncCart_writes_merged (remote : Option CartSession)
    (localCart : List CartItem) (localTotal : ℚ) :
    getCart (mergeAndSyncCart remote localCart localTotal).2 =
      (mergeAndSyncCart remote localCart localTotal).1 := by
  cases remote <;> rfl

theorem mergeAndSyncCart_writes_subtotal (remote : Option CartSession)
    (localCart : List CartItem) (localTotal : ℚ) :
    writtenTotal (mergeAndSyncCart remote localCart localTotal).2 =
      (calculateTotals (mergeAndSyncCart remote localCart localTotal).1).subtotal := by
  cases remote <;> simp [mergeAndSyncCart, writtenTotal, syncCart, calculateTotals]

/-- The spec's merge-scenario items: local X (qty 2). -/
def scenarioLocalX : CartItem :=
  { id := "X", type := .menu_item, quantity := 2, totalPrice := 500, name := "X" }

/-- The spec's merge-scenario items: remote X (same id, different qty 5). -/
def scenarioRemoteX : CartItem :=
  { id := "X", type := .menu_item, quantity := 5, totalPrice := 1250, name := "X" }

/-- The spec's merge-scenario items: remote-only Y. -/
def scenarioRemoteY : CartItem :=
  { id := "Y", type := .menu_item, quantity := 1, totalPrice := 800, name := "Y" }

end PizzaApp

namespace PizzaApp

/-- C3: `mergeAndSyncCart` returns all local items in order followed by
exactly those remote items whose id does not occur among the local ids, and
writes this merged cart back to the remote store; in the spec's scenario
(local [X qty 2], remote [X qty 5, Y]) the merge keeps the local X and
appends Y. -/
theorem C3_merge_local_wins :
    (∀ (remote : Option CartSession) (localCart : List CartItem) (localTotal : ℚ),
      (mergeAndSyncCart remote localCart localTotal).1 =
        localCart ++ (getCart remote).filter
          (fun serverItem => !(localCart.any (fun item => item.id == serverItem.id))) ∧
      getCart (mergeAndSyncCart remote localCart localTotal).2 =
        (mergeAndSyncCart remote localCart localTotal).1 ∧
      (mergeAndSyncCart remote localCart localTotal).2 ≠ none) ∧
    (mergeAndSyncCart
        (some { cart_items := [scenarioRemoteX, scenarioRemoteY], total_amount := 2050 })
        [scenarioLocalX] 500).1 = [scenarioLocalX, scenarioRemoteY] := by
  constructor
  · intro remote localCart localTotal
    refine ⟨mergeAndSyncCart_items remote localCart localTotal,
      mergeAndSyncCart_writes_merged remote localCart localTotal, ?_⟩
    cases remote <;> simp [mergeAndSyncCart, syncCart]
  · rw [mergeAndSyncCart_items]
    simp [getCart, scenarioLocalX, scenarioRemoteX, scenarioRemoteY]

end PizzaApp

namespace PizzaApp

/-! ## CartContext: the authenticated database-sync branches of `removeItem`
and `updateQuantity` (the remote write they perform, given the pre-dispatch
`state.items` they close over) -/

/-- The remote write of `removeItem(id)`: recomputes `calculateTotals` of the
filtered item list and syncs that exact list with that total. -/
def removeItemSync (remote : Option CartSession) (stateItems : List CartItem)
    (id : String) : Option CartSession :=
  let totals := calculateTotals (stateItems.filter (fun item => item.id != id))
  syncCart remote (stateItems.filter (fun item => item.id != id)) totals.total

/-- The remote write of `updateQuantity(id, quantity)`: rewrites the matching
items' quantity (with no zero-quantity pruning, unlike the reducer), recomputes
`calculateTotals` of that list and syncs it with that total. -/
def updateQuantitySync (remote : Option CartSession) (stateItems : List CartItem)
    (id : String) (quantity : ℤ) : Option CartSession :=
  let updatedItems := stateItems.map (fun item =>
    if item.id == id then { item with quantity := quantity } else item)
  let totals := calculateTotals updatedItems
  syncCart remote updatedItems totals.total

theorem removeItemSync_total (remote : Option CartSession)
    (stateItems : List CartItem) (id : String) :
    writtenTotal (removeItemSync remote stateItems id) =
      (calculateTotals (getCart (removeItemSync remote stateItems id))).total := by
  cases remote <;> rfl

theorem updateQuantitySync_total (remote : Option CartSession)
    (stateItems : List CartItem) (id : String) (quantity : ℤ) :
    writtenTotal (updateQuantitySync remote stateItems id quantity) =
      (calculateTotals (getCart (updateQuantitySync remote stateItems id quantity))).total := by
  cases remote <;> rfl

end PizzaApp

namespace PizzaApp

/-- C4 counterexample: merging an empty local cart with an absent remote cart
persists a `total_amount` of 0 for the empty merged item list, while the
derived-totals function on that same (empty) list yields 0 + 150 + 0 = 150 —
so the persisted total is not the `calculateTotals` total of the list being
persisted. -/
theorem C4_merge_persists_non_derived_total :
    writtenTotal (mergeAndSyncCart none [] 0).2 ≠
      (calculateTotals (getCart (mergeAndSyncCart none [] 0).2)).total := by
  simp only [mergeAndSyncCart, getCart, syncCart, writtenTotal, calculateTotals, jsRound,
    List.foldl_nil]
  norm_num

/-- C4 (amended): the totals persisted by `removeItem` and `updateQuantity`
equal the derived-totals total recomputed from the exact item list being
persisted, but `mergeAndSyncCart` persists only the plain sum of the merged
items' `totalPrice` — i.e. the recomputed subtotal, not the derived total
(they differ whenever deliveryFee + tax ≠ 0 for the merged list). -/
theorem C4_persisted_totals :
    (∀ (remote : Option CartSession) (stateItems : List CartItem) (id : String),
      writtenTotal (removeItemSync remote stateItems id) =
        (calculateTotals (getCart (removeItemSync remote stateItems id))).total) ∧
    (∀ (remote : Option CartSession) (stateItems : List CartItem) (id : String)
      (quantity : ℤ),
      writtenTotal (updateQuantitySync remote stateItems id quantity) =
        (calculateTotals (getCart (updateQuantitySync remote stateItems id quantity))).total) ∧
    (∀ (remote : Option CartSession) (localCart : List CartItem) (localTotal : ℚ),
      writtenTotal (mergeAndSyncCart remote localCart localTotal).2 =
        (calculateTotals (getCart (mergeAndSyncCart remote localCart localTotal).2)).subtotal) := by
  refine ⟨removeItemSync_total, updateQuantitySync_total, ?_⟩
  intro remote localCart localTotal
  rw [mergeAndSyncCart_writes_merged]
  exact mergeAndSyncCart_writes_subtotal remote localCart localTotal

end PizzaApp

namespace PizzaApp

/-- All four stored derived fields of a cart state agree with
`calculateTotals` of its stored item list. -/
def derivedConsistent (s : CartState) : Prop :=
  s.subtotal = (calculateTotals s.items).subtotal ∧
  s.deliveryFee = (calculateTotals s.items).deliveryFee ∧
  s.tax = (calculateTotals s.items).tax ∧
  s.total = (calculateTotals s.items).total

theorem updateQuantity_zero_removes (s : CartState) (id : String) :
    ∀ item ∈ (cartReducer s (.UPDATE_QUANTITY id 0)).items, item.id ≠ id := by
  intro item hmem
  simp only [cartReducer] at hmem
  rw [List.mem_filter] at hmem
  obtain ⟨hmem, hq⟩ := hmem
  rw [List.mem_map] at hmem
  obtain ⟨x, hx, rfl⟩ := hmem
  by_cases hid : (x.id == id) = true
  · simp [hid] at hq
  · simp only [hid, if_neg, Bool.false_eq_true, not_false_iff, ite_false]
    intro h
    exact absurd (by simp [h]) (fun hh => hid hh)

theorem updateQuantity_absent_noop (s : CartState) (id : String) (q : ℤ)
    (habs : ∀ item ∈ s.items, (item.id == id) = false)
    (hpos : ∀ item ∈ s.items, 0 < item.quantity)
    (hc : derivedConsistent s) :
    cartReducer s (.UPDATE_QUANTITY id q) = s := by
  have hmap : s.items.map (fun item =>
      if item.id == id then { item with quantity := q } else item) = s.items := by
    have h1 : ∀ item ∈ s.items,
        (if item.id == id then { item with quantity := q } else item) = item := by
      intro item hitem
      simp [habs item hitem]
    rw [List.map_congr_left h1, List.map_id']
  obtain ⟨hsub, hfee, htax, htot⟩ := hc
  cases s with
  | mk items subtotal deliveryFee tax total isLoading =>
    simp only [cartReducer]
    simp only at hmap
    rw [hmap]
    have hfil : items.filter (fun item => item.quantity > 0) = items :=
      List.filter_eq_self.mpr (fun a ha => by simpa using hpos a ha)
    rw [hfil]
    simp only at hsub hfee htax htot
    rw [← hsub, ← hfee, ← htax, ← htot]

end PizzaApp

namespace PizzaApp

/-- C5 counterexample: on the initial empty cart (where the id "x" is not
present), `updateQuantity("x", 1)` is not a no-op: the reducer recomputes the
derived fields from the (still empty) item list, changing the stored
deliveryFee from 0 to 150 and the stored total from 0 to 150. -/
theorem C5_absent_id_not_noop :
    cartReducer initialState (CartAction.UPDATE_QUANTITY "x" 1) ≠ initialState := by
  intro h
  have htot := congrArg CartState.total h
  simp only [cartReducer, initialState, calculateTotals, jsRound, List.map_nil,
    List.filter_nil, List.foldl_nil] at htot
  norm_num at htot

/-- C5 (amended): `updateQuantity(id, 0)` removes every item with that id from
the cart entirely (for every state); and `updateQuantity(id, q)` with an id
not present in the cart is a no-op on states whose items all have positive
quantity and whose stored derived fields agree with `calculateTotals` of the
item list — the counterexample forces these two qualifications, since the
reducer also prunes non-positive quantities and unconditionally rewrites the
four derived fields. -/
theorem C5_updateQuantity :
    (∀ (s : CartState) (id : String),
      ∀ item ∈ (cartReducer s (.UPDATE_QUANTITY id 0)).items, item.id ≠ id) ∧
    (∀ (s : CartState) (id : String) (q : ℤ),
      (∀ item ∈ s.items, (item.id == id) = false) →
      (∀ item ∈ s.items, 0 < item.quantity) →
      derivedConsistent s →
      cartReducer s (.UPDATE_QUANTITY id q) = s) :=
  ⟨updateQuantity_zero_removes, updateQuantity_absent_noop⟩

/-- A one-item cart used by the witnesses. -/
def witnessItem : CartItem :=
  { id := "a", type := .menu_item, quantity := 1, totalPrice := 100, name := "a" }

/-- A cart state holding `witnessItem` whose stored derived fields are, by
construction, `calculateTotals` of its item list. -/
def consistentState1 : CartState :=
  { items := [witnessItem],
    subtotal := (calculateTotals [witnessItem]).subtotal,
    deliveryFee := (calculateTotals [witnessItem]).deliveryFee,
    tax := (calculateTotals [witnessItem]).tax,
    total := (calculateTotals [witnessItem]).total,
    isLoading := false }

/-- C5 witness: both parts applied at concrete inputs — removing id "a" at
quantity 0 from `consistentState1`, and the no-op of updating the absent id
"b" there. -/
theorem C5_updateQuantity_witness :
    (∀ item ∈ (cartReducer consistentState1 (.UPDATE_QUANTITY "a" 0)).items,
      item.id ≠ "a") ∧
    cartReducer consistentState1 (CartAction.UPDATE_QUANTITY "b" 7) = consistentState1 :=
  ⟨C5_updateQuantity.1 consistentState1 "a",
   C5_updateQuantity.2 consistentState1 "b" 7 (by decide) (by decide) ⟨rfl, rfl, rfl, rfl⟩⟩

end PizzaApp

namespace PizzaApp

/-- Every element of `l.mapIdx f` is `f i x` for some element `x` of `l`. -/
theorem exists_of_mem_mapIdx {α β : Type} (f : ℕ → α → β) (l : List α) (y : β)
    (h : y ∈ l.mapIdx f) : ∃ i x, x ∈ l ∧ y = f i x := by
  rw [List.mapIdx_eq_enum_map, List.mem_map] at h
  obtain ⟨⟨i, x⟩, hmem, rfl⟩ := h
  rw [List.mem_enum_iff_getElem?] at hmem
  exact ⟨i, x, List.getElem?_mem hmem, rfl⟩

/-- The three cart mutations, with `addItem` restricted to payloads of
quantity at least 1 (what the UI call sites produce). -/
def goodCartMutation : CartAction → Bool
  | .ADD_ITEM payload => decide (1 ≤ payload.quantity)
  | .REMOVE_ITEM _ => true
  | .UPDATE_QUANTITY _ _ => true
  | _ => false

theorem quantities_ge_one_step (s : CartState) (a : CartAction)
    (hinv : ∀ item ∈ s.items, 1 ≤ item.quantity) (ha : goodCartMutation a = true) :
    ∀ item ∈ (cartReducer s a).items, 1 ≤ item.quantity := by
  cases a with
  | ADD_ITEM payload =>
    have hp : 1 ≤ payload.quantity := of_decide_eq_true ha
    simp only [cartReducer]
    cases hidx : s.items.findIdx? (fun item => item.id == payload.id) with
    | some existingItemIndex =>
      intro item hitem
      obtain ⟨i, x, hx, rfl⟩ := exists_of_mem_mapIdx _ s.items item hitem
      by_cases hi : i = existingItemIndex
      · simp only [hi, eq_self_iff_true, if_true, ite_true]
        have := hinv x hx
        omega
      · simp only [if_neg hi]
        exact hinv x hx
    | none =>
      intro item hitem
      rcases List.mem_append.mp hitem with hmem | hmem
      · exact hinv item hmem
      · rw [List.mem_singleton] at hmem
        exact hmem ▸ hp
  | REMOVE_ITEM payload =>
    intro item hitem
    simp only [cartReducer] at hitem
    exact hinv item (List.mem_filter.mp hitem).1
  | UPDATE_QUANTITY id quantity =>
    intro item hitem
    simp only [cartReducer] at hitem
    have hq := (List.mem_filter.mp hitem).2
    have : 0 < item.quantity := by simpa using hq
    omega
  | CLEAR_CART => simp [goodCartMutation] at ha
  | LOAD_CART payload => simp [goodCartMutation] at ha
  | SET_LOADING payload => simp [goodCartMutation] at ha

theorem quantities_ge_one_applyActions (acts : List CartAction) (s : CartState)
    (hinv : ∀ item ∈ s.items, 1 ≤ item.quantity)
    (h : ∀ a ∈ acts, goodCartMutation a = true) :
    ∀ item ∈ (applyActions acts s).items, 1 ≤ item.quantity := by
  induction acts generalizing s with
  | nil => exact hinv
  | cons a rest ih =>
    show ∀ item ∈ (applyActions rest (cartReducer s a)).items, 1 ≤ item.quantity
    exact ih (cartReducer s a)
      (quantities_ge_one_step s a hinv (h a (by simp)))
      (fun x hx => h x (by simp [hx]))

/-- An `ADD_ITEM` payload with quantity 0, which the reducer accepts
unvalidated. -/
def zeroQtyItem : CartItem :=
  { id := "z", type := .menu_item, quantity := 0, totalPrice := 100, name := "z" }

end PizzaApp

namespace PizzaApp

/-- C6 counterexample: with arbitrary payloads the invariant fails — applying
`addItem` with a payload of quantity 0 to the empty initial cart leaves an
item of quantity 0 in the state (the `ADD_ITEM` case never prunes or
validates quantities; only `UPDATE_QUANTITY` prunes). -/
theorem C6_zero_quantity_reachable :
    ¬ (∀ item ∈ (applyActions [CartAction.ADD_ITEM zeroQtyItem] initialState).items,
        1 ≤ item.quantity) := by
  intro h
  have hitems : (applyActions [CartAction.ADD_ITEM zeroQtyItem] initialState).items =
      [zeroQtyItem] := rfl
  have := h zeroQtyItem (by rw [hitems]; exact List.mem_singleton.mpr rfl)
  simp [zeroQtyItem] at this

/-- C6 (amended): every item of every cart state reachable from the initial
empty state via `addItem` / `removeItem` / `updateQuantity` has quantity ≥ 1,
provided every `addItem` payload has quantity ≥ 1 (the counterexample forces
this proviso: `ADD_ITEM` inserts arbitrary payload quantities unvalidated,
while `UPDATE_QUANTITY` prunes non-positive quantities as claimed). -/
theorem C6_quantity_invariant (acts : List CartAction)
    (h : ∀ a ∈ acts, goodCartMutation a = true) :
    ∀ item ∈ (applyActions acts initialState).items, 1 ≤ item.quantity :=
  quantities_ge_one_applyActions acts initialState (by simp [initialState]) h

/-- C6 witness: the sequence adding `witnessItem` (quantity 1) and then
updating its quantity to 3 satisfies the proviso and the invariant. -/
theorem C6_quantity_invariant_witness :
    (∀ a ∈ [CartAction.ADD_ITEM witnessItem, CartAction.UPDATE_QUANTITY "a" 3],
      goodCartMutation a = true) ∧
    (∀ item ∈ (applyActions
        [CartAction.ADD_ITEM witnessItem, CartAction.UPDATE_QUANTITY "a" 3]
        initialState).items, 1 ≤ item.quantity) :=
  ⟨by decide, C6_quantity_invariant _ (by decide)⟩

end PizzaApp

namespace PizzaApp

theorem totals_fields_ext (a b : Totals) (h1 : a.subtotal = b.subtotal)
    (h2 : a.deliveryFee = b.deliveryFee) (h3 : a.tax = b.tax) (h4 : a.total = b.total) :
    a = b := by
  cases a
  cases b
  simp only [Totals.mk.injEq]
  exact ⟨h1, h2, h3, h4⟩

/-- `calculateTotals` depends only on the sequence of `totalPrice` fields. -/
theorem calculateTotals_congr (items1 items2 : List CartItem)
    (h : items1.map (fun item => item.totalPrice) = items2.map (fun item => item.totalPrice)) :
    calculateTotals items1 = calculateTotals items2 := by
  have hsub : (calculateTotals items1).subtotal = (calculateTotals items2).subtotal := by
    rw [calculateTotals_subtotal, calculateTotals_subtotal, h]
  have hfee : (calculateTotals items1).deliveryFee = (calculateTotals items2).deliveryFee := by
    rw [calculateTotals_deliveryFee, calculateTotals_deliveryFee, hsub]
  have htax : (calculateTotals items1).tax = (calculateTotals items2).tax := by
    rw [calculateTotals_tax, calculateTotals_tax, hsub]
  have htot : (calculateTotals items1).total = (calculateTotals items2).total := by
    rw [calculateTotals_total, calculateTotals_total, hsub, hfee, htax]
  exact totals_fields_ext _ _ hsub hfee htax htot

/-- An index-aware rewrite that does not touch `totalPrice` leaves the
sequence of `totalPrice` fields unchanged. -/
theorem map_totalPrice_mapIdx (l : List CartItem) (f : ℕ → CartItem → CartItem)
    (hf : ∀ i x, (f i x).totalPrice = x.totalPrice) :
    (l.mapIdx f).map (fun item => item.totalPrice) =
      l.map (fun item => item.totalPrice) := by
  rw [List.mapIdx_eq_enum_map, List.map_map]
  have heq : ((fun item => item.totalPrice) ∘ Function.uncurry f) =
      (fun p : ℕ × CartItem => p.2.totalPrice) := by
    funext p
    exact hf p.1 p.2
  rw [heq,
    show (fun p : ℕ × CartItem => p.2.totalPrice) =
      ((fun item => item.totalPrice) ∘ Prod.snd) from rfl,
    ← List.map_map, List.enum_map_snd]

theorem updateQuantity_preserves_derived (s : CartState) (id : String) (q : ℤ)
    (hpos : ∀ item ∈ s.items, 0 < item.quantity) (hq : 1 ≤ q)
    (hc : derivedConsistent s) :
    (cartReducer s (.UPDATE_QUANTITY id q)).subtotal = s.subtotal ∧
    (cartReducer s (.UPDATE_QUANTITY id q)).deliveryFee = s.deliveryFee ∧
    (cartReducer s (.UPDATE_QUANTITY id q)).tax = s.tax ∧
    (cartReducer s (.UPDATE_QUANTITY id q)).total = s.total := by
  have hfil : ((s.items.map (fun item =>
        if item.id == id then { item with quantity := q } else item)).filter
        (fun item => item.quantity > 0)) =
      s.items.map (fun item => if item.id == id then { item with quantity := q } else item) := by
    rw [List.filter_eq_self]
    intro a ha
    rw [List.mem_map] at ha
    obtain ⟨x, hx, rfl⟩ := ha
    by_cases hid : (x.id == id) = true
    · simp only [hid, if_true, ite_true]
      simpa using hq.trans_lt' (by norm_num)
    · simp only [hid, Bool.false_eq_true, if_neg, ite_false]
      simpa using hpos x hx
  have hmap : (s.items.map (fun item =>
        if item.id == id then { item with quantity := q } else item)).map
        (fun item => item.totalPrice) =
      s.items.map (fun item => item.totalPrice) := by
    rw [List.map_map]
    refine List.map_congr_left ?_
    intro x hx
    by_cases hid : x.id = id <;> simp [hid]
  have hct : calculateTotals ((s.items.map (fun item =>
        if item.id == id then { item with quantity := q } else item)).filter
        (fun item => item.quantity > 0)) = calculateTotals s.items := by
    rw [hfil]
    exact calculateTotals_congr _ _ hmap
  obtain ⟨h1, h2, h3, h4⟩ := hc
  simp only [cartReducer, hct]
  exact ⟨h1.symm, h2.symm, h3.symm, h4.symm⟩

theorem addItem_existing_preserves_derived (s : CartState) (payload : CartItem)
    (hex : s.items.any (fun item => item.id == payload.id) = true)
    (hc : derivedConsistent s) :
    (cartReducer s (.ADD_ITEM payload)).subtotal = s.subtotal ∧
    (cartReducer s (.ADD_ITEM payload)).deliveryFee = s.deliveryFee ∧
    (cartReducer s (.ADD_ITEM payload)).tax = s.tax ∧
    (cartReducer s (.ADD_ITEM payload)).total = s.total := by
  obtain ⟨h1, h2, h3, h4⟩ := hc
  simp only [cartReducer]
  cases hidx : s.items.findIdx? (fun item => item.id == payload.id) with
  | none =>
    exfalso
    rw [List.findIdx?_eq_none_iff] at hidx
    rw [List.any_eq_true] at hex
    obtain ⟨x, hx, hpx⟩ := hex
    rw [hidx x hx] at hpx
    exact Bool.false_ne_true hpx
  | some existingItemIndex =>
    have hct : calculateTotals (s.items.mapIdx (fun index item =>
        if index = existingItemIndex then
          { item with quantity := item.quantity + payload.quantity }
        else item)) = calculateTotals s.items := by
      refine calculateTotals_congr _ _ ?_
      refine map_totalPrice_mapIdx s.items _ ?_
      intro i x
      by_cases hi : i = existingItemIndex <;> simp [hi]
    simp only [hct]
    exact ⟨h1.symm, h2.symm, h3.symm, h4.symm⟩

end PizzaApp

namespace PizzaApp

/-- A cart item with id "b" and quantity 0 (reachable, see the C6 analysis). -/
def zeroQtyItemB : CartItem :=
  { id := "b", type := .menu_item, quantity := 0, totalPrice := 100, name := "b" }

/-- A consistent cart state holding an item of quantity 1 and an item of
quantity 0. -/
def mixedState : CartState :=
  { items := [witnessItem, zeroQtyItemB],
    subtotal := (calculateTotals [witnessItem, zeroQtyItemB]).subtotal,
    deliveryFee := (calculateTotals [witnessItem, zeroQtyItemB]).deliveryFee,
    tax := (calculateTotals [witnessItem, zeroQtyItemB]).tax,
    total := (calculateTotals [witnessItem, zeroQtyItemB]).total,
    isLoading := false }

end PizzaApp

namespace PizzaApp

/-- C10 counterexample: in `mixedState` the id "a" is present, the stored
derived fields are consistent, and `updateQuantity("a", 1)` has q = 1 ≥ 1 —
yet the subtotal changes (from 200 to 100), because the reducer's
zero-quantity pruning drops the unrelated quantity-0 item "b" from the sum.
So "updateQuantity with q ≥ 1 leaves all derived totals unchanged" fails for
arbitrary cart states. -/
theorem C10_update_changes_subtotal :
    (mixedState.items.any (fun item => item.id == "a")) = true ∧
    derivedConsistent mixedState ∧
    (cartReducer mixedState (CartAction.UPDATE_QUANTITY "a" 1)).subtotal ≠
      mixedState.subtotal := by
  refine ⟨by decide, ⟨rfl, rfl, rfl, rfl⟩, ?_⟩
  have hrec := cartReducer_mutation_recomputes mixedState
    (CartAction.UPDATE_QUANTITY "a" 1) rfl
  have hitems : (cartReducer mixedState (CartAction.UPDATE_QUANTITY "a" 1)).items =
      [{ witnessItem with quantity := 1 }] := rfl
  rw [hrec.1, hitems, calculateTotals_subtotal,
    show mixedState.subtotal = (calculateTotals [witnessItem, zeroQtyItemB]).subtotal from rfl,
    calculateTotals_subtotal]
  simp only [List.map_cons, List.map_nil, List.sum_cons, List.sum_nil, witnessItem,
    zeroQtyItemB]
  norm_num

/-- C10 (amended): the derived totals depend only on the items' `totalPrice`
fields; and on cart states whose items all have positive quantity and whose
stored derived fields are consistent, `updateQuantity(id, q)` with q ≥ 1
leaves subtotal, deliveryFee, tax and total unchanged, and a duplicate
`addItem` (existing id) leaves all four unchanged while only bumping the
quantity — the positivity and consistency qualifications are forced by the
counterexample. -/
theorem C10_totals_depend_only_on_totalPrice :
    (∀ items1 items2 : List CartItem,
      items1.map (fun item => item.totalPrice) = items2.map (fun item => item.totalPrice) →
      calculateTotals items1 = calculateTotals items2) ∧
    (∀ (s : CartState) (id : String) (q : ℤ),
      (∀ item ∈ s.items, 0 < item.quantity) → 1 ≤ q → derivedConsistent s →
      (cartReducer s (.UPDATE_QUANTITY id q)).subtotal = s.subtotal ∧
      (cartReducer s (.UPDATE_QUANTITY id q)).deliveryFee = s.deliveryFee ∧
      (cartReducer s (.UPDATE_QUANTITY id q)).tax = s.tax ∧
      (cartReducer s (.UPDATE_QUANTITY id q)).total = s.total) ∧
    (∀ (s : CartState) (payload : CartItem),
      s.items.any (fun item => item.id == payload.id) = true → derivedConsistent s →
      (cartReducer s (.ADD_ITEM payload)).subtotal = s.subtotal ∧
      (cartReducer s (.ADD_ITEM payload)).deliveryFee = s.deliveryFee ∧
      (cartReducer s (.ADD_ITEM payload)).tax = s.tax ∧
      (cartReducer s (.ADD_ITEM payload)).total = s.total) :=
  ⟨calculateTotals_congr, updateQuantity_preserves_derived, addItem_existing_preserves_derived⟩

/-- A duplicate `addItem` payload sharing the id of `witnessItem`. -/
def dupPayload : CartItem :=
  { id := "a", type := .menu_item, quantity := 2, totalPrice := 100, name := "a" }

/-- C10 witness: the three parts applied at concrete inputs on
`consistentState1`. -/
theorem C10_totals_depend_only_on_totalPrice_witness :
    calculateTotals [witnessItem] = calculateTotals [dupPayload] ∧
    (cartReducer consistentState1 (CartAction.UPDATE_QUANTITY "a" 5)).total =
      consistentState1.total ∧
    (cartReducer consistentState1 (CartAction.ADD_ITEM dupPayload)).total =
      consistentState1.total :=
  ⟨C10_totals_depend_only_on_totalPrice.1 [witnessItem] [dupPayload] rfl,
   (C10_totals_depend_only_on_totalPrice.2.1 consistentState1 "a" 5 (by decide) (by decide)
     ⟨rfl, rfl, rfl, rfl⟩).2.2.2,
   (C10_totals_depend_only_on_totalPrice.2.2 consistentState1 dupPayload (by decide)
     ⟨rfl, rfl, rfl, rfl⟩).2.2.2⟩

end PizzaApp

namespace PizzaApp

/-! ## UserProfileService: profile resolution (`getOrCreateProfile`) -/

/-- A row of the `user_profiles` table; `phone`, `avatar_url` and the
timestamps are never read by the modelled logic. -/
structure ProfileRow where
  id : String
  user_id : String
  email : String
  name : Option String
deriving DecidableEq, Repr

/-- PostgREST's `.single()`: a row when the query matched exactly one row,
an error (here `none`) otherwise. -/
def singleRow (rows : List ProfileRow) : Option ProfileRow :=
  match rows with
  | [p] => some p
  | _ => none

/-- The `user_profiles` query `.eq('user_id', userId).single()`. -/
def selectByUserId (db : List ProfileRow) (userId : String) : Option ProfileRow :=
  singleRow (db.filter (fun p => p.user_id == userId))

/-- The `user_profiles` query `.eq('email', email).single()`. -/
def selectByEmail (db : List ProfileRow) (email : String) : Option ProfileRow :=
  singleRow (db.filter (fun p => p.email == email))

/-- `UserProfileService.getOrCreateProfile`: lookup by `user_id` and return if
found; else lookup by email and adopt that row by overwriting its `user_id`;
else insert a new row (`newId` is the primary key the store assigns) whose
name is the email's local part. Returns the resolved profile and the new
table state. -/
def getOrCreateProfile (db : List ProfileRow) (userId email newId : String) :
    Option ProfileRow × List ProfileRow :=
  match selectByUserId db userId with
  | some existingProfile => (some existingProfile, db)
  | none =>
    match selectByEmail db email with
    | some profileByEmail =>
      let updatedProfile := { profileByEmail with user_id := userId }
      (some updatedProfile,
        db.map (fun p => if p.id == profileByEmail.id then updatedProfile else p))
    | none =>
      let newProfile : ProfileRow :=
        { id := newId, user_id := userId, email := email,
          name := some (emailLocalPart email) }
      (some newProfile, db ++ [newProfile])

theorem singleRow_eq_some (rows : List ProfileRow) (p : ProfileRow) :
    singleRow rows = some p ↔ rows = [p] := by
  cases rows with
  | nil => simp [singleRow]
  | cons a tail =>
    cases tail with
    | nil => simp [singleRow]
    | cons b t2 => simp [singleRow]

/-- In a list whose images under `key` are pairwise distinct, filtering for
the key of a member yields exactly that member. -/
theorem filter_key_of_nodup {α : Type} (key : α → String) (l : List α) (x : α)
    (hnd : (l.map key).Nodup) (hx : x ∈ l) :
    l.filter (fun y => key y == key x) = [x] := by
  induction l with
  | nil => cases hx
  | cons a tl ih =>
    rw [List.map_cons, List.nodup_cons] at hnd
    rcases List.mem_cons.mp hx with heq | hmem
    · subst heq
      rw [List.filter_cons_of_pos (by simp)]
      have hnil : tl.filter (fun y => key y == key x) = [] := by
        rw [List.filter_eq_nil_iff]
        intro b hb hba
        exact hnd.1 ((eq_of_beq hba) ▸ List.mem_map_of_mem key hb)
      rw [hnil]
    · have hka : (key a == key x) = false := by
        rw [beq_eq_false_iff_ne]
        intro he
        exact hnd.1 (he ▸ List.mem_map_of_mem key hmem)
      rw [List.filter_cons_of_neg (by simp [hka])]
      exact ih hnd.2 hmem

/-- When the `user_id` lookup returns no row while the table has at most one
matching row, the table has no matching row at all. -/
theorem filter_userId_nil (db : List ProfileRow) (userId : String)
    (h1 : selectByUserId db userId = none)
    (hlen : (db.filter (fun p => p.user_id == userId)).length ≤ 1) :
    db.filter (fun p => p.user_id == userId) = [] := by
  cases hf : db.filter (fun p => p.user_id == userId) with
  | nil => rfl
  | cons a t =>
    cases t with
    | nil =>
      exfalso
      have : selectByUserId db userId = some a := by
        rw [selectByUserId, hf]
        rfl
      rw [h1] at this
      cases this
    | cons b t2 =>
      exfalso
      rw [hf] at hlen
      simp at hlen

end PizzaApp

namespace PizzaApp

theorem getOrCreateProfile_found (db : List ProfileRow) (userId email newId : String)
    (p : ProfileRow) (h : selectByUserId db userId = some p) :
    getOrCreateProfile db userId email newId = (some p, db) := by
  simp [getOrCreateProfile, h]

theorem getOrCreateProfile_adopt (db : List ProfileRow) (userId email newId : String)
    (p : ProfileRow) (h1 : selectByUserId db userId = none)
    (h2 : selectByEmail db email = some p) :
    getOrCreateProfile db userId email newId =
      (some { p with user_id := userId },
       db.map (fun q => if q.id == p.id then { p with user_id := userId } else q)) := by
  simp [getOrCreateProfile, h1, h2]

theorem getOrCreateProfile_create (db : List ProfileRow) (userId email newId : String)
    (h1 : selectByUserId db userId = none) (h2 : selectByEmail db email = none) :
    getOrCreateProfile db userId email newId =
      (some { id := newId, user_id := userId, email := email,
              name := some (emailLocalPart email) },
       db ++ [{ id := newId, user_id := userId, email := email,
                name := some (emailLocalPart email) }]) := by
  simp [getOrCreateProfile, h1, h2]

/-- After adopting the email-matched row, that row is the unique `user_id`
match in the updated table. -/
theorem adopt_filter (db : List ProfileRow) (userId : String) (p : ProfileRow)
    (hnil : db.filter (fun q => q.user_id == userId) = [])
    (hid : (db.map (fun q => q.id)).Nodup) (hp : p ∈ db) :
    (db.map (fun q => if q.id == p.id then { p with user_id := userId } else q)).filter
        (fun q => q.user_id == userId) = [{ p with user_id := userId }] := by
  rw [List.filter_map]
  have hcong : db.filter ((fun q => q.user_id == userId) ∘
        fun q => if q.id == p.id then { p with user_id := userId } else q) =
      db.filter (fun q => q.id == p.id) := by
    apply List.filter_congr
    intro q hq
    by_cases hqid : (q.id == p.id) = true
    · simp [Function.comp, hqid]
    · have hqu : (q.user_id == userId) = false := by
        cases hqu : (q.user_id == userId) with
        | false => rfl
        | true =>
          exfalso
          have hin : q ∈ db.filter (fun r => r.user_id == userId) :=
            List.mem_filter.mpr ⟨hq, hqu⟩
          rw [hnil] at hin
          cases hin
      simp [Function.comp, hqid, hqu]
  rw [hcong, filter_key_of_nodup (fun q => q.id) db p hid hp]
  simp

end PizzaApp

namespace PizzaApp

/-- C7: `getOrCreateProfile` resolves in three steps — return the profile
found by identity; else adopt the profile found by email (its `user_id` is
overwritten with the given identity); else create a new profile whose name is
the email's local part — and, on a table with distinct primary keys and at
most one row for the identity, calling it twice with the same identity
returns the same profile both times while the second call leaves the table
untouched (no duplicate creation). -/
theorem C7_profile_resolution (db : List ProfileRow) (userId email newId newId2 : String)
    (hid : (db.map (fun p => p.id)).Nodup)
    (hlen : (db.filter (fun p => p.user_id == userId)).length ≤ 1) :
    (∀ p, selectByUserId db userId = some p →
      getOrCreateProfile db userId email newId = (some p, db)) ∧
    (∀ p, selectByUserId db userId = none → selectByEmail db email = some p →
      (getOrCreateProfile db userId email newId).1 = some { p with user_id := userId }) ∧
    (selectByUserId db userId = none → selectByEmail db email = none →
      (getOrCreateProfile db userId email newId).1 =
        some { id := newId, user_id := userId, email := email,
               name := some (emailLocalPart email) }) ∧
    (∃ p, (getOrCreateProfile db userId email newId).1 = some p) ∧
    getOrCreateProfile (getOrCreateProfile db userId email newId).2 userId email newId2 =
      ((getOrCreateProfile db userId email newId).1,
       (getOrCreateProfile db userId email newId).2) := by
  refine ⟨fun p h => getOrCreateProfile_found db userId email newId p h,
    fun p h1 h2 => by rw [getOrCreateProfile_adopt db userId email newId p h1 h2],
    fun h1 h2 => by rw [getOrCreateProfile_create db userId email newId h1 h2], ?_⟩
  cases h1 : selectByUserId db userId with
  | some p =>
    rw [getOrCreateProfile_found db userId email newId p h1]
    exact ⟨⟨p, rfl⟩, getOrCreateProfile_found db userId email newId2 p h1⟩
  | none =>
    have hnil := filter_userId_nil db userId h1 hlen
    cases h2 : selectByEmail db email with
    | some p =>
      have hp : p ∈ db := by
        have hf : db.filter (fun q => q.email == email) = [p] :=
          (singleRow_eq_some _ _).mp h2
        have hmem : p ∈ db.filter (fun q => q.email == email) := by
          rw [hf]
          exact List.mem_singleton.mpr rfl
        exact (List.mem_filter.mp hmem).1
      rw [getOrCreateProfile_adopt db userId email newId p h1 h2]
      have hsel : selectByUserId
          (db.map (fun q => if q.id == p.id then { p with user_id := userId } else q))
          userId = some { p with user_id := userId } := by
        rw [selectByUserId, adopt_filter db userId p hnil hid hp]
        rfl
      exact ⟨⟨_, rfl⟩, getOrCreateProfile_found _ userId email newId2 _ hsel⟩
    | none =>
      rw [getOrCreateProfile_create db userId email newId h1 h2]
      have hsel : selectByUserId
          (db ++ [{ id := newId, user_id := userId, email := email,
                    name := some (emailLocalPart email) }]) userId =
          some { id := newId, user_id := userId, email := email,
                 name := some (emailLocalPart email) } := by
        rw [selectByUserId, List.filter_append, hnil]
        simp [singleRow]
      exact ⟨⟨_, rfl⟩, getOrCreateProfile_found _ userId email newId2 _ hsel⟩

/-- A one-row profile table for the witness. -/
def profileDb0 : List ProfileRow :=
  [{ id := "prof1", user_id := "user1", email := "ada@example.com", name := some "ada" }]

/-- C7 witness: on the concrete one-row table, the resolved profile exists
and the second call returns the same resolved profile and the same table. -/
theorem C7_profile_resolution_witness :
    (∃ p, (getOrCreateProfile profileDb0 "user1" "ada@example.com" "prof2").1 = some p) ∧
    getOrCreateProfile (getOrCreateProfile profileDb0 "user1" "ada@example.com" "prof2").2
        "user1" "ada@example.com" "prof3" =
      ((getOrCreateProfile profileDb0 "user1" "ada@example.com" "prof2").1,
       (getOrCreateProfile profileDb0 "user1" "ada@example.com" "prof2").2) := by
  have h := C7_profile_resolution profileDb0 "user1" "ada@example.com" "prof2" "prof3"
    (by decide) (by decide)
  exact ⟨h.2.2.2.1, h.2.2.2.2⟩

end PizzaApp

namespace PizzaApp

/-! ## UserContext: local profile/address state and reducer -/

/-- `UserAddress` from `UserContext`. -/
structure UserAddress where
  id : String
  title : String
  street : String
  city : String
  zip : String
  isDefault : Bool
deriving DecidableEq, Repr

/-- `UserProfile` from `UserContext`. -/
structure UserProfile where
  id : String
  name : String
  email : String
  phone : String
  avatar : Option String
  addresses : List UserAddress
deriving DecidableEq, Repr

/-- `UserState` from `UserContext`. -/
structure UserState where
  profile : Option UserProfile
  isLoading : Bool
deriving DecidableEq, Repr

/-- `Partial<UserAddress>` payload: each field either absent or supplying a
new value (the TS spread `{...addr, ...payload}` overwrites present fields). -/
structure PartialUserAddress where
  id : Option String
  title : Option String
  street : Option String
  city : Option String
  zip : Option String
  isDefault : Option Bool
deriving DecidableEq, Repr

/-- The spread `{...addr, ...payload}` for a partial address payload. -/
def applyPartialAddress (addr : UserAddress) (upd : PartialUserAddress) : UserAddress :=
  { id := upd.id.getD addr.id, title := upd.title.getD addr.title,
    street := upd.street.getD addr.street, city := upd.city.getD addr.city,
    zip := upd.zip.getD addr.zip, isDefault := upd.isDefault.getD addr.isDefault }

/-- `Partial<UserProfile>` payload (an `avatar` field present in the payload
carries an `Option String`, as the profile's avatar is itself optional). -/
structure PartialUserProfile where
  id : Option String
  name : Option String
  email : Option String
  phone : Option String
  avatar : Option (Option String)
  addresses : Option (List UserAddress)
deriving DecidableEq, Repr

/-- The spread `{...profile, ...payload}` for a partial profile payload. -/
def applyPartialProfile (profile : UserProfile) (upd : PartialUserProfile) : UserProfile :=
  { id := upd.id.getD profile.id, name := upd.name.getD profile.name,
    email := upd.email.getD profile.email, phone := upd.phone.getD profile.phone,
    avatar := upd.avatar.getD profile.avatar,
    addresses := upd.addresses.getD profile.addresses }

/-- `UserAction` from `UserContext`. -/
inductive UserAction
  | SET_LOADING (payload : Bool)
  | SET_PROFILE (payload : UserProfile)
  | UPDATE_PROFILE (payload : PartialUserProfile)
  | ADD_ADDRESS (payload : UserAddress)
  | UPDATE_ADDRESS (id : String) (address : PartialUserAddress)
  | DELETE_ADDRESS (payload : String)
  | SET_DEFAULT_ADDRESS (payload : String)
deriving DecidableEq, Repr

/-- `userReducer` from `UserContext`, case for case; every address mutation is
a no-op when no profile is loaded. -/
def userReducer (state : UserState) (action : UserAction) : UserState :=
  match action with
  | .SET_LOADING payload => { state with isLoading := payload }
  | .SET_PROFILE payload => { state with profile := some payload, isLoading := false }
  | .UPDATE_PROFILE payload =>
    match state.profile with
    | none => state
    | some profile =>
      { state with profile := some (applyPartialProfile profile payload) }
  | .ADD_ADDRESS payload =>
    match state.profile with
    | none => state
    | some profile =>
      let newAddresses := profile.addresses ++ [payload]
      let newProfile := { profile with addresses := newAddresses }
      { state with profile := some newProfile }
  | .UPDATE_ADDRESS id address =>
    match state.profile with
    | none => state
    | some profile =>
      let newAddresses := profile.addresses.map (fun addr =>
        if addr.id == id then applyPartialAddress addr address else addr)
      let newProfile := { profile with addresses := newAddresses }
      { state with profile := some newProfile }
  | .DELETE_ADDRESS payload =>
    match state.profile with
    | none => state
    | some profile =>
      let newAddresses := profile.addresses.filter (fun addr => addr.id != payload)
      let newProfile := { profile with addresses := newAddresses }
      { state with profile := some newProfile }
  | .SET_DEFAULT_ADDRESS payload =>
    match state.profile with
    | none => state
    | some profile =>
      let newAddresses := profile.addresses.map (fun addr =>
        { addr with isDefault := addr.id == payload })
      let newProfile := { profile with addresses := newAddresses }
      { state with profile := some newProfile }

/-! ## UserProfileService: remote address operations -/

/-- A row of the `user_addresses` table. -/
structure AddressRow where
  id : String
  user_profile_id : String
  title : String
  street : String
  city : String
  zip_code : String
  is_default : Bool
deriving DecidableEq, Repr

/-- `UserProfileService.setDefaultAddress`: first unsets `is_default` on all
of the profile's rows, then sets it on the row with the requested id (two
sequential updates of the table). -/
def setDefaultAddress (table : List AddressRow) (addressId userProfileId : String) :
    List AddressRow :=
  let unset := table.map (fun row =>
    if row.user_profile_id == userProfileId then { row with is_default := false } else row)
  unset.map (fun row =>
    if row.id == addressId && row.user_profile_id == userProfileId then
      { row with is_default := true }
    else row)

/-- `UserProfileService.getAddresses`: the profile's rows (the source also
orders them by `is_default`/`created_at`, which the set-level claims do not
depend on). -/
def getAddresses (table : List AddressRow) (userProfileId : String) : List AddressRow :=
  table.filter (fun row => row.user_profile_id == userProfileId)

end PizzaApp

namespace PizzaApp

/-- Marking each element's default flag by key equality with `aid` produces a
list in which the flag holds exactly on elements with key `aid`, and (when
keys are distinct and some element has key `aid`) exactly one element carries
the flag. -/
theorem mark_default_core {α : Type} (key : α → String) (flag : α → Bool)
    (h : α → α) (l : List α) (aid : String) (x : α)
    (hkey : ∀ a, key (h a) = key a)
    (hflag : ∀ a, flag (h a) = (key a == aid))
    (hnd : (l.map key).Nodup) (hx : x ∈ l) (hxid : key x = aid) :
    (∀ a ∈ l.map h, flag a = true ↔ key a = aid) ∧
    ((l.map h).filter flag).map key = [aid] := by
  constructor
  · intro a ha
    rw [List.mem_map] at ha
    obtain ⟨b, hb, rfl⟩ := ha
    rw [hflag b, hkey b]
    exact beq_iff_eq
  · rw [List.filter_map]
    have hpred : l.filter (flag ∘ h) = l.filter (fun y => key y == key x) := by
      apply List.filter_congr
      intro b hb
      rw [Function.comp_apply, hflag b, hxid]
    rw [hpred, filter_key_of_nodup key l x hnd hx]
    simp [hkey, hxid]

/-- Reading back the profile's rows after `setDefaultAddress` is the same as
rewriting each of the profile's rows with `is_default := (id == addressId)`. -/
theorem setDefault_getAddresses (table : List AddressRow) (aid pid : String) :
    getAddresses (setDefaultAddress table aid pid) pid =
      (getAddresses table pid).map
        (fun row => { row with is_default := (row.id == aid) }) := by
  unfold setDefaultAddress getAddresses
  rw [List.map_map, List.filter_map]
  have hpred : table.filter ((fun row => row.user_profile_id == pid) ∘
        ((fun row => if row.id == aid && row.user_profile_id == pid then
            { row with is_default := true } else row) ∘
          (fun row => if row.user_profile_id == pid then
            { row with is_default := false } else row))) =
      table.filter (fun row => row.user_profile_id == pid) := by
    apply List.filter_congr
    intro row hrow
    by_cases hp : (row.user_profile_id == pid) = true
    · by_cases hi : (row.id == aid) = true <;> simp [Function.comp, hp, hi]
    · simp [Function.comp, hp]
  rw [hpred]
  apply List.map_congr_left
  intro row hrow
  have hp : (row.user_profile_id == pid) = true := (List.mem_filter.mp hrow).2
  by_cases hi : (row.id == aid) = true <;> simp [Function.comp, hp, hi]

end PizzaApp

namespace PizzaApp

/-- C8: after `SET_DEFAULT_ADDRESS aid` on a loaded profile whose address ids
are distinct and contain `aid`, the address list has `isDefault` true exactly
on the requested id, and exactly one address carries it; and the remote
`setDefaultAddress` (unset all of the profile's rows, then set the target)
leaves the profile's rows with exactly one `is_default` row, the requested
one. -/
theorem C8_set_default :
    (∀ (profile : UserProfile) (load : Bool) (aid : String) (x : UserAddress),
      (profile.addresses.map (fun a => a.id)).Nodup →
      x ∈ profile.addresses → x.id = aid →
      ∃ p2, (userReducer { profile := some profile, isLoading := load }
          (.SET_DEFAULT_ADDRESS aid)).profile = some p2 ∧
        (∀ a ∈ p2.addresses, a.isDefault = true ↔ a.id = aid) ∧
        (p2.addresses.filter (fun a => a.isDefault)).map (fun a => a.id) = [aid]) ∧
    (∀ (table : List AddressRow) (aid pid : String) (x : AddressRow),
      ((getAddresses table pid).map (fun r => r.id)).Nodup →
      x ∈ getAddresses table pid → x.id = aid →
      (∀ r ∈ getAddresses (setDefaultAddress table aid pid) pid,
        r.is_default = true ↔ r.id = aid) ∧
      ((getAddresses (setDefaultAddress table aid pid) pid).filter
        (fun r => r.is_default)).map (fun r => r.id) = [aid]) := by
  constructor
  · intro profile load aid x hnd hx hxid
    refine ⟨_, rfl, ?_⟩
    exact mark_default_core (fun a => a.id) (fun a => a.isDefault)
      (fun a => { a with isDefault := a.id == aid }) profile.addresses aid x
      (fun a => rfl) (fun a => rfl) hnd hx hxid
  · intro table aid pid x hnd hx hxid
    rw [setDefault_getAddresses table aid pid]
    exact mark_default_core (fun r => r.id) (fun r => r.is_default)
      (fun r => { r with is_default := (r.id == aid) }) (getAddresses table pid) aid x
      (fun r => rfl) (fun r => rfl) hnd hx hxid

/-- Two concrete addresses for the C8 witness. -/
def addrHome : UserAddress :=
  { id := "addr1", title := "Home", street := "1 Main St", city := "Karachi",
    zip := "74000", isDefault := true }

/-- Two concrete addresses for the C8 witness. -/
def addrWork : UserAddress :=
  { id := "addr2", title := "Work", street := "2 Office Rd", city := "Karachi",
    zip := "74001", isDefault := false }

/-- A loaded profile for the C8 witness. -/
def witnessProfile : UserProfile :=
  { id := "prof1", name := "ada", email := "ada@example.com", phone := "0300",
    avatar := none, addresses := [addrHome, addrWork] }

/-- Two concrete remote rows for the C8 witness. -/
def rowHome : AddressRow :=
  { id := "addr1", user_profile_id := "prof1", title := "Home", street := "1 Main St",
    city := "Karachi", zip_code := "74000", is_default := true }

/-- Two concrete remote rows for the C8 witness. -/
def rowWork : AddressRow :=
  { id := "addr2", user_profile_id := "prof1", title := "Work", street := "2 Office Rd",
    city := "Karachi", zip_code := "74001", is_default := false }

/-- C8 witness: setting "addr2" as default, locally on `witnessProfile` and
remotely on the two-row table, leaves exactly one default address, "addr2". -/
theorem C8_set_default_witness :
    (∃ p2, (userReducer { profile := some witnessProfile, isLoading := false }
        (.SET_DEFAULT_ADDRESS "addr2")).profile = some p2 ∧
      (∀ a ∈ p2.addresses, a.isDefault = true ↔ a.id = "addr2") ∧
      (p2.addresses.filter (fun a => a.isDefault)).map (fun a => a.id) = ["addr2"]) ∧
    ((getAddresses (setDefaultAddress [rowHome, rowWork] "addr2" "prof1") "prof1").filter
      (fun r => r.is_default)).map (fun r => r.id) = ["addr2"] :=
  ⟨C8_set_default.1 witnessProfile false "addr2" addrWork (by decide) (by decide) rfl,
   (C8_set_default.2 [rowHome, rowWork] "addr2" "prof1" rowWork (by decide) (by decide)
     rfl).2⟩

end PizzaApp

namespace PizzaApp

/-! ## OrderContext: order state and reducer -/

/-- An order row with its related data; only `id` and `order_status` are read
by the reducer (items, totals, address snapshot and history are carried
opaquely and elided). -/
structure ExtendedOrder where
  id : String
  order_number : String
  order_status : String
deriving DecidableEq, Repr

/-- `OrderState` from `OrderContext`. -/
structure OrderState where
  orders : List ExtendedOrder
  activeOrders : List ExtendedOrder
  orderHistory : List ExtendedOrder
  loading : Bool
  error : Option String
deriving DecidableEq, Repr

/-- The `initialState` of `OrderContext`. -/
def orderInitialState : OrderState :=
  { orders := [], activeOrders := [], orderHistory := [], loading := false, error := none }

/-- `OrderAction` from `OrderContext`. -/
inductive OrderAction
  | SET_LOADING (payload : Bool)
  | SET_ORDERS (payload : List ExtendedOrder)
  | ADD_ORDER (payload : ExtendedOrder)
  | UPDATE_ORDER (payload : ExtendedOrder)
  | SET_ERROR (payload : Option String)
  | CLEAR_ORDERS
deriving DecidableEq, Repr

/-- The open statuses of the `orderReducer` filters. -/
def activeStatuses : List String :=
  ["pending", "confirmed", "preparing", "ready", "out_for_delivery"]

/-- The terminal statuses of the `orderReducer` filters. -/
def historyStatuses : List String :=
  ["delivered", "cancelled"]

/-- `orderReducer` from `OrderContext`, case for case: the three
order-changing actions recompute `activeOrders` and `orderHistory` by
filtering the full new order list. -/
def orderReducer (state : OrderState) (action : OrderAction) : OrderState :=
  match action with
  | .SET_LOADING payload => { state with loading := payload }
  | .SET_ORDERS payload =>
    let orders := payload
    let activeOrders := orders.filter (fun order => activeStatuses.contains order.order_status)
    let orderHistory := orders.filter (fun order => historyStatuses.contains order.order_status)
    { state with orders := orders, activeOrders := activeOrders,
                 orderHistory := orderHistory, loading := false, error := none }
  | .ADD_ORDER payload =>
    let newOrders := payload :: state.orders
    let newActiveOrders :=
      newOrders.filter (fun order => activeStatuses.contains order.order_status)
    let newOrderHistory :=
      newOrders.filter (fun order => historyStatuses.contains order.order_status)
    { state with orders := newOrders, activeOrders := newActiveOrders,
                 orderHistory := newOrderHistory }
  | .UPDATE_ORDER payload =>
    let updatedOrders := state.orders.map (fun order =>
      if order.id == payload.id then payload else order)
    let updatedActiveOrders :=
      updatedOrders.filter (fun order => activeStatuses.contains order.order_status)
    let updatedOrderHistory :=
      updatedOrders.filter (fun order => historyStatuses.contains order.order_status)
    { state with orders := updatedOrders, activeOrders := updatedActiveOrders,
                 orderHistory := updatedOrderHistory }
  | .SET_ERROR payload => { state with error := payload, loading := false }
  | .CLEAR_ORDERS =>
    { state with orders := [], activeOrders := [], orderHistory := [], error := none }

end PizzaApp

namespace PizzaApp

/-- C9: after each of `SET_ORDERS`, `ADD_ORDER` and `UPDATE_ORDER`, the
active list is exactly the orders whose status is in {pending, confirmed,
preparing, ready, out_for_delivery} and the history list exactly those in
{delivered, cancelled}, both recomputed by filtering the full stored order
list; and loading an empty order list yields empty orders, an empty active
list and empty history with the error field cleared and loading ended. -/
theorem C9_order_partition :
    (∀ (s : OrderState) (payload : List ExtendedOrder),
      (orderReducer s (.SET_ORDERS payload)).activeOrders =
        (orderReducer s (.SET_ORDERS payload)).orders.filter
          (fun order => activeStatuses.contains order.order_status) ∧
      (orderReducer s (.SET_ORDERS payload)).orderHistory =
        (orderReducer s (.SET_ORDERS payload)).orders.filter
          (fun order => historyStatuses.contains order.order_status)) ∧
    (∀ (s : OrderState) (payload : ExtendedOrder),
      (orderReducer s (.ADD_ORDER payload)).activeOrders =
        (orderReducer s (.ADD_ORDER payload)).orders.filter
          (fun order => activeStatuses.contains order.order_status) ∧
      (orderReducer s (.ADD_ORDER payload)).orderHistory =
        (orderReducer s (.ADD_ORDER payload)).orders.filter
          (fun order => historyStatuses.contains order.order_status)) ∧
    (∀ (s : OrderState) (payload : ExtendedOrder),
      (orderReducer s (.UPDATE_ORDER payload)).activeOrders =
        (orderReducer s (.UPDATE_ORDER payload)).orders.filter
          (fun order => activeStatuses.contains order.order_status) ∧
      (orderReducer s (.UPDATE_ORDER payload)).orderHistory =
        (orderReducer s (.UPDATE_ORDER payload)).orders.filter
          (fun order => historyStatuses.contains order.order_status)) ∧
    (∀ s : OrderState, orderReducer s (.SET_ORDERS []) =
      { s with orders := [], activeOrders := [], orderHistory := [],
               loading := false, error := none }) :=
  ⟨fun _ _ => ⟨rfl, rfl⟩, fun _ _ => ⟨rfl, rfl⟩,
   fun _ _ => ⟨rfl, rfl⟩, fun _ => rfl⟩

end PizzaApp
